import Mathlib

/-!
Verification development for the Shopify order-export → accounting-journal
transformation (src/transform_order_export.py, with src/utils.py as the app-side
variant).  Monetary amounts are modelled as integers in cents: every amount the
program handles is a `Decimal` quantized to 2 decimal places, so a value `x`
euros is represented by the integer `100 * x`.  Division followed by
`quantize(Decimal("0.01"), ROUND_HALF_UP)` becomes exact rational division
rounded half-away-from-zero to an integer number of cents (Python's
`ROUND_HALF_UP` rounds ties away from zero; the intermediate 28-significant-digit
context of `Decimal` division never changes the 2-decimal outcome for the
divisors 1.20, 0.20 and 0.055 used here, since exact quotients lie either
exactly on or at distance at least 1/2200 from any half-cent boundary).
-/

namespace MRF

/-- Rounding of the rational `num / den` (with `den > 0`) to the nearest
integer, ties away from zero: the integer-cents form of
`Decimal.quantize(Decimal("0.01"), rounding=ROUND_HALF_UP)` applied to an exact
quotient. -/
def roundHalfUp (num den : Int) : Int :=
  if 0 ≤ num then (2 * num + den).fdiv (2 * den)
  else -((2 * (-num) + den).fdiv (2 * den))

/-- Whether `needle` occurs at the head of `hay`. -/
def startsWith : List Char → List Char → Bool
  | _, [] => true
  | [], _ :: _ => false
  | c :: cs, d :: ds => c = d && startsWith cs ds

/-- Whether `needle` occurs contiguously anywhere in `hay`: Python's
`needle in hay` on strings. -/
def strContains (needle : List Char) : List Char → Bool
  | [] => startsWith [] needle
  | c :: t => startsWith (c :: t) needle || strContains needle t

/-- Source `is_reduced_rate` (transform_order_export.py:58-60):
`"5,5" in tax_name or "5.5" in tax_name`. -/
def is_reduced_rate (tax_name : String) : Bool :=
  strContains "5,5".data tax_name.data || strContains "5.5".data tax_name.data

/-- Digit character value. -/
def digitVal (c : Char) : Nat := c.toNat - '0'.toNat

/-- Value of a digit string read left to right. -/
def digitsToNat (cs : List Char) : Nat := cs.foldl (fun n c => 10 * n + digitVal c) 0

/-- Python's `str.strip()` over the whitespace the data can contain: drop
whitespace characters from both ends. -/
def strTrim (s : String) : String :=
  String.mk (((s.data.dropWhile Char.isWhitespace).reverse.dropWhile Char.isWhitespace).reverse)

/-- Grammar of `decimal.Decimal(str)` restricted to the forms monetary CSV
fields take: optional surrounding whitespace, optional sign, digits with at
most one decimal point and at least one digit.  (The constructor's exponent,
`Infinity`/`NaN` and underscore forms are not modelled.)  Returns the value in
cents, rounded half-away-from-zero to 2 decimals as `quantize` does, or `none`
when the string is rejected (Python: `InvalidOperation` is raised). -/
def decParse (s : String) : Option Int :=
  let cs := (strTrim s).data
  let sgn : Int × List Char :=
    match cs with
    | '+' :: t => (1, t)
    | '-' :: t => (-1, t)
    | _ => (1, cs)
  let ip := sgn.2.takeWhile Char.isDigit
  let r1 := sgn.2.dropWhile Char.isDigit
  match r1 with
  | [] => if ip = [] then none else some (sgn.1 * 100 * (digitsToNat ip : Int))
  | '.' :: r2 =>
    let fp := r2.takeWhile Char.isDigit
    let r3 := r2.dropWhile Char.isDigit
    if r3 = [] ∧ (ip ≠ [] ∨ fp ≠ []) then
      some (roundHalfUp (sgn.1 * (digitsToNat (ip ++ fp) : Int) * 100) ((10 : Int) ^ fp.length))
    else none
  | _ => none

/-- Source `parse_amount` (transform_order_export.py:41-45): empty/blank is 0;
otherwise replace `,` by `.` and parse as a `Decimal` quantized to 2 decimals,
raising (`none`) on an unparseable string.  The raised `InvalidOperation`
carries no row or field context, which `Option` models faithfully. -/
def parse_amount (value : String) : Option Int :=
  if value = "" ∨ strTrim value = "" then some 0
  else decParse (String.mk (value.data.map (fun c => if c = ',' then '.' else c)))

/-- Calendar date (time of day is discarded by the pipeline). -/
structure Date where
  year : Nat
  month : Nat
  day : Nat
deriving DecidableEq, Repr

/-- Gregorian leap-year rule, as `datetime` validates day-of-month. -/
def isLeap (y : Nat) : Bool := y % 4 == 0 && (y % 100 != 0 || y % 400 == 0)

/-- Number of days in a month, as `datetime` validates. -/
def daysInMonth (y m : Nat) : Nat :=
  if m = 2 then (if isLeap y then 29 else 28)
  else if m = 4 ∨ m = 6 ∨ m = 9 ∨ m = 11 then 30 else 31

/-- Month per CPython strptime's `%m` regex `1[0-2]|0[1-9]|[1-9]`. -/
def parseMonthChars : List Char → Option (Nat × List Char)
  | c1 :: c2 :: rest =>
    if c1 = '1' ∧ ('0' ≤ c2 ∧ c2 ≤ '2') then some (10 + digitVal c2, rest)
    else if c1 = '0' ∧ ('1' ≤ c2 ∧ c2 ≤ '9') then some (digitVal c2, rest)
    else if '1' ≤ c1 ∧ c1 ≤ '9' then some (digitVal c1, c2 :: rest)
    else none
  | [c1] => if '1' ≤ c1 ∧ c1 ≤ '9' then some (digitVal c1, []) else none
  | [] => none

/-- Day per CPython strptime's `%d` regex `3[01]|[12]\d|0[1-9]|[1-9]`. -/
def parseDayChars : List Char → Option (Nat × List Char)
  | c1 :: c2 :: rest =>
    if c1 = '3' ∧ ('0' ≤ c2 ∧ c2 ≤ '1') then some (30 + digitVal c2, rest)
    else if ('1' ≤ c1 ∧ c1 ≤ '2') ∧ c2.isDigit then some (10 * digitVal c1 + digitVal c2, rest)
    else if c1 = '0' ∧ ('1' ≤ c2 ∧ c2 ≤ '9') then some (digitVal c2, rest)
    else if '1' ≤ c1 ∧ c1 ≤ '9' then some (digitVal c1, c2 :: rest)
    else none
  | [c1] => if '1' ≤ c1 ∧ c1 ≤ '9' then some (digitVal c1, []) else none
  | [] => none

/-- Full-string match of `%Y-%m-%d` (`%Y` is exactly four digits) followed by
`datetime`'s range validation (`MINYEAR = 1`, day within the month). -/
def parseYMDChars : List Char → Option Date
  | y1 :: y2 :: y3 :: y4 :: '-' :: rest =>
    if y1.isDigit ∧ y2.isDigit ∧ y3.isDigit ∧ y4.isDigit then
      let y := 1000 * digitVal y1 + 100 * digitVal y2 + 10 * digitVal y3 + digitVal y4
      match parseMonthChars rest with
      | some (m, '-' :: rest2) =>
        match parseDayChars rest2 with
        | some (d, []) => if 1 ≤ y ∧ d ≤ daysInMonth y m then some ⟨y, m, d⟩ else none
        | _ => none
      | _ => none
    else none
  | _ => none

/-- Source `parse_date` (transform_order_export.py:48-55): blank strings give
`none`; otherwise `strptime(date_str[:10], "%Y-%m-%d")`, with a failed parse
giving `none`. -/
def parse_date (s : String) : Option Date :=
  if strTrim s = "" then none else parseYMDChars (s.data.take 10)

/-- Raw CSV row restricted to the columns the extractor reads; `none` models a
key absent from the row dict. -/
structure Row where
  name : Option String := none
  paidAt : Option String := none
  createdAt : Option String := none
  total : Option String := none
  shipping : Option String := none
  tax1Name : Option String := none
  tax1Value : Option String := none
  tax2Name : Option String := none
  tax2Value : Option String := none
deriving DecidableEq, Repr

/-- One extracted order (amounts in cents). -/
structure OrderRecord where
  date : Option Date
  total : Int
  shipping : Int
  tva_20 : Int
  tva_55 : Int
deriving DecidableEq, Repr

/-- One iteration of the tax loop (transform_order_export.py:79-85): a reduced
name adds the value to the reduced bucket, otherwise a strictly positive value
adds to the standard bucket, otherwise nothing changes. -/
def taxUpdate (tax_name : String) (tax_value : Int) (acc : Int × Int) : Int × Int :=
  if is_reduced_rate tax_name then (acc.1, acc.2 + tax_value)
  else if 0 < tax_value then (acc.1 + tax_value, acc.2) else acc

/-- Date column selection `row.get("Paid at") or row.get("Created at", "")`:
Python's `or` falls through exactly on `None` and on the empty string. -/
def dateField (row : Row) : String :=
  match row.paidAt with
  | some s => if s = "" then row.createdAt.getD "" else s
  | none => row.createdAt.getD ""

/-- Trimmed order identifier `row.get("Name", "").strip()`. -/
def trimName (row : Row) : String := strTrim (row.name.getD "")

/-- Record built from one raw row (transform_order_export.py:77-93); `none`
when any monetary field fails to parse (the Python code raises). -/
def mkRecord (row : Row) : Option OrderRecord :=
  match parse_amount (row.tax1Value.getD "0"), parse_amount (row.tax2Value.getD "0"),
        parse_amount (row.total.getD "0"), parse_amount (row.shipping.getD "0") with
  | some v1, some v2, some tot, some ship =>
    let t1 := taxUpdate (row.tax1Name.getD "") v1 (0, 0)
    let t2 := taxUpdate (row.tax2Name.getD "") v2 t1
    some { date := parse_date (dateField row), total := tot, shipping := ship,
           tva_20 := t2.1, tva_55 := t2.2 }
  | _, _, _, _ => none

/-- Association-list lookup, first binding wins: Python dict access on a dict
built by insertion. -/
def alookup {α β : Type} [DecidableEq α] (k : α) : List (α × β) → Option β
  | [] => none
  | p :: t => if p.1 = k then some p.2 else alookup k t

/-- Loop body of `read_orders` (transform_order_export.py:72-93): blank or
already-seen identifiers are skipped, otherwise the row's record is appended
(insertion order). -/
def readOrdersStep (orders : List (String × OrderRecord)) (row : Row) :
    Option (List (String × OrderRecord)) :=
  let order_name := trimName row
  if order_name = "" ∨ (alookup order_name orders).isSome then some orders
  else
    match mkRecord row with
    | none => none
    | some rec => some (orders ++ [(order_name, rec)])

/-- Tail of the extraction loop starting from accumulator `acc`. -/
def readOrdersAux (acc : List (String × OrderRecord)) :
    List Row → Option (List (String × OrderRecord))
  | [] => some acc
  | row :: rows =>
    match readOrdersStep acc row with
    | none => none
    | some acc2 => readOrdersAux acc2 rows

/-- Source `read_orders` (transform_order_export.py:67-95) over an in-memory
row sequence: ordered mapping from order identifier to record, `none` when a
monetary parse fails mid-run. -/
def read_orders (rows : List Row) : Option (List (String × OrderRecord)) :=
  readOrdersAux [] rows

/-- Daily aggregate (amounts in cents). -/
structure DayData where
  total : Int
  shipping : Int
  tva_20 : Int
  tva_55 : Int
deriving DecidableEq, Repr

/-- DayData built from one record. -/
def recDay (r : OrderRecord) : DayData := ⟨r.total, r.shipping, r.tva_20, r.tva_55⟩

/-- Componentwise addition of aggregates. -/
def addDay (a b : DayData) : DayData :=
  ⟨a.total + b.total, a.shipping + b.shipping, a.tva_20 + b.tva_20, a.tva_55 + b.tva_55⟩

/-- Zero aggregate (the `defaultdict` initial value). -/
def zeroDay : DayData := ⟨0, 0, 0, 0⟩

/-- Add one record into the `defaultdict`: an existing date is updated in
place, a fresh date is appended (dict insertion order). -/
def bumpDay (d : Date) (r : OrderRecord) : List (Date × DayData) → List (Date × DayData)
  | [] => [(d, addDay zeroDay (recDay r))]
  | p :: t => if p.1 = d then (p.1, addDay p.2 (recDay r)) :: t else p :: bumpDay d r t

/-- Loop body of `aggregate_by_date` (transform_order_export.py:103-107):
records without a date are skipped. -/
def aggStep (acc : List (Date × DayData)) (r : OrderRecord) : List (Date × DayData) :=
  match r.date with
  | some d => bumpDay d r acc
  | none => acc

/-- Aggregation over the record sequence (`orders.values()`). -/
def aggRecords (records : List OrderRecord) : List (Date × DayData) :=
  records.foldl aggStep []

/-- Source `aggregate_by_date` (transform_order_export.py:98-109). -/
def aggregate_by_date (orders : List (String × OrderRecord)) : List (Date × DayData) :=
  aggRecords (orders.map Prod.snd)

/-- Result of `calculate_ht` (amounts in cents; `shipping` is the shipping HT). -/
structure HTResult where
  tva_20 : Int
  tva_55 : Int
  sales_20 : Int
  sales_55 : Int
  shipping : Int
deriving DecidableEq, Repr

/-- Local `shipping_ht` of `calculate_ht` (transform_order_export.py:118):
`(shipping / Decimal("1.20")).quantize(...)` guarded by `if shipping`; in cents
the quotient is `shipping * 100 / 120`. -/
def shippingHT (shipping : Int) : Int :=
  if shipping ≠ 0 then roundHalfUp (shipping * 100) 120 else 0

/-- Local `product_tva_20` (transform_order_export.py:122). -/
def productTva20 (shipping tva_20 : Int) : Int :=
  max 0 (tva_20 - (shipping - shippingHT shipping))

/-- Local `sales_20` before reconciliation (transform_order_export.py:125):
division by `Decimal("0.20")` is `* 100 / 20` in cents. -/
def sales20Raw (shipping tva_20 : Int) : Int :=
  if productTva20 shipping tva_20 ≠ 0 then roundHalfUp (productTva20 shipping tva_20 * 100) 20
  else 0

/-- Local `sales_55` (transform_order_export.py:126): division by
`Decimal("0.055")` is `* 1000 / 55` in cents. -/
def sales55Raw (tva_55 : Int) : Int :=
  if tva_55 ≠ 0 then roundHalfUp (tva_55 * 1000) 55 else 0

/-- Source `calculate_ht` (transform_order_export.py:112-133). -/
def calculate_ht (total shipping tva_20 tva_55 : Int) : HTResult :=
  let shipping_ht := shippingHT shipping
  let sales_20 := sales20Raw shipping tva_20
  let sales_55 := sales55Raw tva_55
  let credits := tva_20 + tva_55 + sales_20 + sales_55 + shipping_ht
  let diff := total - credits
  { tva_20 := tva_20, tva_55 := tva_55,
    sales_20 := if diff ≠ 0 then sales_20 + diff else sales_20,
    sales_55 := sales_55, shipping := shipping_ht }

/-- Journal code constant. -/
def JOURNAL : String := "VT2"

/-- Chart-of-accounts constants (transform_order_export.py:22-29). -/
def accountClients : String × String := ("411200000", "Clients")

/-- Standard-rate VAT account. -/
def accountTva20 : String × String := ("445712000", "TVA 20%")

/-- Reduced-rate VAT account. -/
def accountTva55 : String × String := ("445710500", "TVA 5,5%")

/-- Reduced-rate sales account. -/
def accountSales55 : String × String := ("707000012", "Ventes produits finis TVA reduite")

/-- Standard-rate sales account. -/
def accountSales20 : String × String := ("707000011", "Ventes marchandises TVA normale")

/-- Shipping account. -/
def accountShipping : String × String := ("708500011", "Ports et frais accessoires factures")

/-- Two-digit zero-padded decimal, as strftime renders each component. -/
def pad2 (n : Nat) : String := if n < 10 then "0" ++ toString n else toString n

/-- strftime `%d%m%y`. -/
def fmtDDMMYY (d : Date) : String := pad2 d.day ++ pad2 d.month ++ pad2 (d.year % 100)

/-- strftime `%y%m%d`. -/
def fmtYYMMDD (d : Date) : String := pad2 (d.year % 100) ++ pad2 d.month ++ pad2 d.day

/-- One output journal line; `none` in a monetary column models the blank
string the code writes there. -/
structure Entry where
  compte : String
  journal : String
  dateEcriture : String
  commentaire : String
  montantDebit : Option Int
  montantCredit : Option Int
  piece : String
  dateEcheance : String
  lettrage : String
deriving DecidableEq, Repr

/-- The `add_entry` closure (transform_order_export.py:148-154): fixed journal
code, the day's `%d%m%y` date, comment = account label, piece =
journal code + `%y%m%d`, blank due date and reconciliation mark. -/
def mkEntry (account : String × String) (d : Date) (debit credit : Option Int) : Entry :=
  { compte := account.1, journal := JOURNAL, dateEcriture := fmtDDMMYY d,
    commentaire := account.2, montantDebit := debit, montantCredit := credit,
    piece := JOURNAL ++ fmtYYMMDD d, dateEcheance := "", lettrage := "" }

/-- Lines emitted for one day (transform_order_export.py:156-169): the clients
debit always, then each credit line exactly when its amount is strictly
positive, in the source's fixed order. -/
def dayEntries (d : Date) (data : DayData) : List Entry :=
  let amounts := calculate_ht data.total data.shipping data.tva_20 data.tva_55
  [mkEntry accountClients d (some data.total) none]
  ++ (if 0 < amounts.tva_20 then [mkEntry accountTva20 d none (some amounts.tva_20)] else [])
  ++ (if 0 < amounts.tva_55 then [mkEntry accountTva55 d none (some amounts.tva_55)] else [])
  ++ (if 0 < amounts.sales_55 then [mkEntry accountSales55 d none (some amounts.sales_55)] else [])
  ++ (if 0 < amounts.sales_20 then [mkEntry accountSales20 d none (some amounts.sales_20)] else [])
  ++ (if 0 < amounts.shipping then [mkEntry accountShipping d none (some amounts.shipping)] else [])

/-- Python's ordering on `datetime.date`: lexicographic on
(year, month, day). -/
def dateLe (a b : Date) : Bool :=
  decide (a.year < b.year ∨ (a.year = b.year ∧
    (a.month < b.month ∨ (a.month = b.month ∧ a.day ≤ b.day))))

/-- Stable insertion into a sorted list. -/
def sortInsert {α : Type} (le : α → α → Bool) (x : α) : List α → List α
  | [] => [x]
  | y :: t => if le x y then x :: y :: t else y :: sortInsert le x t

/-- Stable sort modelling Python's `sorted`. -/
def sortList {α : Type} (le : α → α → Bool) : List α → List α
  | [] => []
  | x :: t => sortInsert le x (sortList le t)

/-- Source `generate_entries` (transform_order_export.py:136-171): iterate the
dict's keys in ascending date order, emitting each day's lines. -/
def generate_entries (daily : List (Date × DayData)) : List Entry :=
  (sortList dateLe (daily.map Prod.fst)).flatMap
    (fun d =>
      match alookup d daily with
      | some data => dayEntries d data
      | none => [])

/-- Whole core pipeline of `main` (transform_order_export.py:196-198):
read, aggregate, generate; a parse failure aborts with no output. -/
def pipeline (rows : List Row) : Option (List Entry) :=
  match read_orders rows with
  | some orders => some (generate_entries (aggregate_by_date orders))
  | none => none

/-- Sum of the credit amounts of a list of journal lines. -/
def creditSum (es : List Entry) : Int := (es.map (fun e => e.montantCredit.getD 0)).sum

/-- Sum of the debit amounts of a list of journal lines. -/
def debitSum (es : List Entry) : Int := (es.map (fun e => e.montantDebit.getD 0)).sum

lemma roundHalfUp_nonneg {num den : Int} (hn : 0 ≤ num) (hd : 0 < den) :
    0 ≤ roundHalfUp num den := by
  rw [roundHalfUp, if_pos hn]
  exact Int.fdiv_nonneg (by omega) (by omega)

lemma shippingHT_nonneg {s : Int} (hs : 0 ≤ s) : 0 ≤ shippingHT s := by
  rw [shippingHT]
  split
  · exact roundHalfUp_nonneg (by omega) (by omega)
  · omega

lemma productTva20_nonneg (s t20 : Int) : 0 ≤ productTva20 s t20 := by
  rw [productTva20]; exact le_max_left 0 _

lemma sales20Raw_nonneg (s t20 : Int) : 0 ≤ sales20Raw s t20 := by
  rw [sales20Raw]
  split
  · exact roundHalfUp_nonneg (by have := productTva20_nonneg s t20; omega) (by omega)
  · omega

lemma sales55Raw_nonneg {t55 : Int} (h : 0 ≤ t55) : 0 ≤ sales55Raw t55 := by
  rw [sales55Raw]
  split
  · exact roundHalfUp_nonneg (by omega) (by omega)
  · omega

/-- The reconciliation step makes the five returned components sum to `total`,
unconditionally. -/
lemma calculate_ht_sum (total s t20 t55 : Int) :
    (calculate_ht total s t20 t55).tva_20 + (calculate_ht total s t20 t55).tva_55 +
      (calculate_ht total s t20 t55).sales_20 + (calculate_ht total s t20 t55).sales_55 +
      (calculate_ht total s t20 t55).shipping = total := by
  simp only [calculate_ht]
  split <;> omega

lemma alookup_append {α β : Type} [DecidableEq α] (k : α) (l1 l2 : List (α × β)) :
    alookup k (l1 ++ l2) = (alookup k l1).or (alookup k l2) := by
  induction l1 with
  | nil => simp [alookup]
  | cons p t ih =>
    by_cases h : p.1 = k <;> simp [alookup, h, ih]

lemma alookup_eq_none {α β : Type} [DecidableEq α] (k : α) (l : List (α × β)) :
    alookup k l = none ↔ k ∉ l.map Prod.fst := by
  induction l with
  | nil => simp [alookup]
  | cons p t ih =>
    by_cases h : p.1 = k
    · simp [alookup, h]
    · simp only [alookup, if_neg h, ih, List.map_cons, List.mem_cons]
      refine ⟨fun hn hc => hc.elim (fun hk => h hk.symm) hn, fun hn hc => hn (Or.inr hc)⟩

lemma sortInsert_perm {α : Type} (le : α → α → Bool) (x : α) (l : List α) :
    (sortInsert le x l).Perm (x :: l) := by
  induction l with
  | nil => exact List.Perm.refl _
  | cons y t ih =>
    rw [sortInsert]
    split
    · exact List.Perm.refl _
    · exact (ih.cons y).trans (List.Perm.swap x y t)

lemma sortList_perm {α : Type} (le : α → α → Bool) (l : List α) :
    (sortList le l).Perm l := by
  induction l with
  | nil => exact List.Perm.refl _
  | cons x t ih =>
    rw [sortList]
    exact (sortInsert_perm le x (sortList le t)).trans (ih.cons x)

lemma sortInsert_pairwise {α : Type} (le : α → α → Bool)
    (htrans : ∀ a b c, le a b = true → le b c = true → le a c = true)
    (htot : ∀ a b, le a b = true ∨ le b a = true)
    (x : α) (l : List α) (h : l.Pairwise (fun a b => le a b = true)) :
    (sortInsert le x l).Pairwise (fun a b => le a b = true) := by
  induction l with
  | nil => simp [sortInsert]
  | cons y t ih =>
    obtain ⟨hy, ht⟩ := List.pairwise_cons.mp h
    rw [sortInsert]
    split
    · refine List.pairwise_cons.mpr ⟨?_, h⟩
      intro z hz
      rcases List.mem_cons.mp hz with rfl | hz2
      · assumption
      · next hxy => exact htrans x y z hxy (hy z hz2)
    · next hxy =>
      have hyx : le y x = true := (htot x y).resolve_left (by simpa using hxy)
      refine List.pairwise_cons.mpr ⟨?_, ih ht⟩
      intro z hz
      have hz3 : z ∈ x :: t := (sortInsert_perm le x t).mem_iff.mp hz
      rcases List.mem_cons.mp hz3 with rfl | hz4
      · exact hyx
      · exact hy z hz4

lemma sortList_pairwise {α : Type} (le : α → α → Bool)
    (htrans : ∀ a b c, le a b = true → le b c = true → le a c = true)
    (htot : ∀ a b, le a b = true ∨ le b a = true) (l : List α) :
    (sortList le l).Pairwise (fun a b => le a b = true) := by
  induction l with
  | nil => simp [sortList]
  | cons x t ih => exact sortInsert_pairwise le htrans htot x (sortList le t) ih

lemma dateLe_trans : ∀ a b c : Date, dateLe a b = true → dateLe b c = true →
    dateLe a c = true := by
  intro a b c hab hbc
  simp only [dateLe, decide_eq_true_eq] at *
  omega

lemma dateLe_total : ∀ a b : Date, dateLe a b = true ∨ dateLe b a = true := by
  intro a b
  simp only [dateLe, decide_eq_true_eq]
  omega

/-- Invariant of the extraction loop: keys stay nodup, the blank key never
appears, and each non-blank key's record comes from the accumulator or else
from the first matching row of the remaining input. -/
lemma readOrdersAux_spec (rows : List Row) :
    ∀ acc res : List (String × OrderRecord),
      readOrdersAux acc rows = some res →
      ((acc.map Prod.fst).Nodup → (res.map Prod.fst).Nodup)
      ∧ (alookup "" acc = none → alookup "" res = none)
      ∧ ∀ key : String, key ≠ "" →
          alookup key res =
            (alookup key acc).or
              ((rows.find? (fun r => decide (trimName r = key))).bind mkRecord) := by
  induction rows with
  | nil =>
    intro acc res h
    rw [readOrdersAux] at h
    obtain rfl : acc = res := by injection h
    exact ⟨id, id, fun key _ => by simp [Option.or_none]⟩
  | cons row rows ih =>
    intro acc res h
    rw [readOrdersAux] at h
    cases hstep : readOrdersStep acc row with
    | none => rw [hstep] at h; exact absurd h (by simp)
    | some acc2 =>
      rw [hstep] at h
      obtain ⟨h1, h2, h3⟩ := ih acc2 res h
      rw [readOrdersStep] at hstep
      by_cases hskip : trimName row = "" ∨ (alookup (trimName row) acc).isSome
      · rw [if_pos hskip] at hstep
        obtain rfl : acc = acc2 := by injection hstep
        refine ⟨h1, h2, fun key hk => ?_⟩
        rw [h3 key hk]
        by_cases hrk : trimName row = key
        · subst hrk
          rcases hskip with hblank | hsome
          · exact absurd hblank hk
          · obtain ⟨v, hv⟩ := Option.isSome_iff_exists.mp hsome
            rw [hv]
            rfl
        · rw [List.find?_cons_of_neg _ (by simpa using hrk)]
      · rw [if_neg hskip] at hstep
        push_neg at hskip
        obtain ⟨hname, hseen0⟩ := hskip
        have hseen : alookup (trimName row) acc = none := by
          cases halo : alookup (trimName row) acc with
          | none => rfl
          | some v => exact absurd (by rw [halo]; rfl) hseen0
        cases hrec : mkRecord row with
        | none => rw [hrec] at hstep; exact absurd hstep (by simp)
        | some newRec =>
          rw [hrec] at hstep
          obtain rfl : acc ++ [(trimName row, newRec)] = acc2 := by injection hstep
          refine ⟨?_, ?_, ?_⟩
          · intro hnd
            apply h1
            rw [List.map_append, List.nodup_append]
            exact ⟨hnd, by simp, by
              intro a ha hb
              simp at hb
              subst hb
              exact (alookup_eq_none (trimName row) acc).mp hseen ha⟩
          · intro h0
            apply h2
            rw [alookup_append, h0, Option.none_or]
            simp [alookup, hname]
          · intro key hk
            rw [h3 key hk, alookup_append]
            by_cases hrk : trimName row = key
            · subst hrk
              rw [hseen, Option.none_or, Option.none_or,
                List.find?_cons_of_pos _ (by simp)]
              simp [alookup, hrec]
            · rw [List.find?_cons_of_neg _ (by simpa using hrk)]
              have : alookup key [(trimName row, newRec)] = none := by
                simp [alookup, hrk]
              rw [this, Option.or_none]

/-- Shape of `find?` successes: the found element splits the list, with the
predicate false on everything before it. -/
lemma find?_split {α : Type} (p : α → Bool) (l : List α) (a : α)
    (h : l.find? p = some a) :
    ∃ l1 l2, l = l1 ++ a :: l2 ∧ ∀ x ∈ l1, p x = false := by
  induction l with
  | nil => simp [List.find?] at h
  | cons b t ih =>
    by_cases hb : p b = true
    · rw [List.find?_cons_of_pos _ hb] at h
      obtain rfl : b = a := by injection h
      exact ⟨[], t, by simp⟩
    · rw [List.find?_cons_of_neg _ hb] at h
      obtain ⟨l1, l2, rfl, hl1⟩ := ih h
      refine ⟨b :: l1, l2, by simp, ?_⟩
      intro x hx
      rcases List.mem_cons.mp hx with rfl | hx2
      · simpa using hb
      · exact hl1 x hx2

/-- Componentwise per-date sum over a record list. -/
def sumDay (records : List OrderRecord) : DayData :=
  ⟨(records.map OrderRecord.total).sum, (records.map OrderRecord.shipping).sum,
   (records.map OrderRecord.tva_20).sum, (records.map OrderRecord.tva_55).sum⟩

lemma addDay_zero (v : DayData) : addDay v zeroDay = v := by
  cases v; simp [addDay, zeroDay]

lemma zeroDay_add (v : DayData) : addDay zeroDay v = v := by
  cases v; simp [addDay, zeroDay]

lemma addDay_assoc (a b c : DayData) : addDay (addDay a b) c = addDay a (addDay b c) := by
  cases a; cases b; cases c; simp [addDay]; omega

lemma sumDay_nil : sumDay [] = zeroDay := by simp [sumDay, zeroDay]

lemma sumDay_cons (r : OrderRecord) (l : List OrderRecord) :
    sumDay (r :: l) = addDay (recDay r) (sumDay l) := by
  simp [sumDay, recDay, addDay]

lemma alookup_bumpDay (d d' : Date) (r : OrderRecord) (acc : List (Date × DayData)) :
    alookup d (bumpDay d' r acc) =
      if d' = d then some (addDay ((alookup d acc).getD zeroDay) (recDay r))
      else alookup d acc := by
  induction acc with
  | nil =>
    by_cases h : d' = d <;> simp [bumpDay, alookup, h]
  | cons p t ih =>
    by_cases hp : p.1 = d'
    · rw [bumpDay, if_pos hp]
      by_cases h : d' = d
      · subst h; rw [alookup, if_pos hp, alookup, if_pos hp]; simp
      · have hpd : ¬ p.1 = d := fun hc => h (hp ▸ hc)
        rw [alookup, if_neg hpd, if_neg h, alookup, if_neg hpd]
    · rw [bumpDay, if_neg hp]
      by_cases hpd : p.1 = d
      · have h : ¬ d' = d := fun hc => hp (hc ▸ hpd)
        rw [alookup, if_pos hpd, if_neg h, alookup, if_pos hpd]
      · rw [alookup, if_neg hpd, ih, alookup, if_neg hpd]

lemma alookup_aggStep (d : Date) (r : OrderRecord) (acc : List (Date × DayData)) :
    alookup d (aggStep acc r) =
      if r.date = some d then some (addDay ((alookup d acc).getD zeroDay) (recDay r))
      else alookup d acc := by
  rw [aggStep]
  cases hd : r.date with
  | none => simp
  | some d' =>
    rw [alookup_bumpDay]
    by_cases h : d' = d
    · subst h; simp
    · have h2 : ¬ ((some d' : Option Date) = some d) := fun hc => h (by injection hc)
      rw [if_neg h, if_neg h2]

/-- Combined view of the aggregation fold. -/
def combineAgg (o : Option DayData) (f : List OrderRecord) : Option DayData :=
  if f.isEmpty then o else some (addDay (o.getD zeroDay) (sumDay f))

lemma aggFold_lookup (l : List OrderRecord) :
    ∀ (acc : List (Date × DayData)) (d : Date),
      alookup d (l.foldl aggStep acc) =
        combineAgg (alookup d acc) (l.filter (fun r => decide (r.date = some d))) := by
  induction l with
  | nil => intro acc d; simp [combineAgg]
  | cons r l ih =>
    intro acc d
    rw [List.foldl_cons, ih]
    by_cases hd : r.date = some d
    · rw [List.filter_cons_of_pos (by simpa using hd), alookup_aggStep, if_pos hd]
      by_cases hfe : (l.filter (fun r => decide (r.date = some d))).isEmpty = true
      · rw [List.isEmpty_iff.mp hfe]
        simp [combineAgg, sumDay_cons, sumDay_nil, addDay_zero]
      · simp [combineAgg, hfe, sumDay_cons, addDay_assoc]
    · rw [List.filter_cons_of_neg (by simpa using hd), alookup_aggStep, if_neg hd]

lemma aggRecords_lookup (l : List OrderRecord) (d : Date) :
    alookup d (aggRecords l) =
      (if (l.filter (fun r => decide (r.date = some d))).isEmpty then none
       else some (sumDay (l.filter (fun r => decide (r.date = some d))))) := by
  rw [aggRecords, aggFold_lookup, combineAgg]
  simp [alookup, zeroDay_add]

lemma sumDay_perm {f1 f2 : List OrderRecord} (h : f1.Perm f2) : sumDay f1 = sumDay f2 := by
  simp only [sumDay]
  rw [(h.map OrderRecord.total).sum_eq, (h.map OrderRecord.shipping).sum_eq,
    (h.map OrderRecord.tva_20).sum_eq, (h.map OrderRecord.tva_55).sum_eq]

lemma mem_ite_singleton {α : Type} (c : Prop) [Decidable c] (x e : α) :
    e ∈ (if c then [x] else []) ↔ c ∧ e = x := by
  split
  · next h => simp [h]
  · next h => simp [h]

lemma creditSum_append (l1 l2 : List Entry) :
    creditSum (l1 ++ l2) = creditSum l1 + creditSum l2 := by
  simp [creditSum]

lemma debitSum_append (l1 l2 : List Entry) :
    debitSum (l1 ++ l2) = debitSum l1 + debitSum l2 := by
  simp [debitSum]

lemma creditSum_ite (c : Prop) [Decidable c] (e : Entry) :
    creditSum (if c then [e] else []) = if c then e.montantCredit.getD 0 else 0 := by
  split <;> simp [creditSum]

lemma debitSum_ite (c : Prop) [Decidable c] (e : Entry) :
    debitSum (if c then [e] else []) = if c then e.montantDebit.getD 0 else 0 := by
  split <;> simp [debitSum]

/-- The extraction loop aborts whenever it reaches a row whose identifier is
non-blank and unseen but whose amounts fail to parse. -/
lemma readOrdersAux_fails (l1 : List Row) :
    ∀ (acc : List (String × OrderRecord)) (r : Row) (l2 : List Row),
      mkRecord r = none → trimName r ≠ "" →
      (∀ x ∈ l1, trimName x ≠ trimName r) →
      alookup (trimName r) acc = none →
      readOrdersAux acc (l1 ++ r :: l2) = none := by
  induction l1 with
  | nil =>
    intro acc r l2 hmk hname hfresh hacc
    rw [List.nil_append, readOrdersAux, readOrdersStep]
    rw [if_neg (by simp [hname, hacc]), hmk]
  | cons x l1 ih =>
    intro acc r l2 hmk hname hfresh hacc
    rw [List.cons_append, readOrdersAux]
    cases hstep : readOrdersStep acc x with
    | none => rfl
    | some acc2 =>
      have hx : trimName x ≠ trimName r := hfresh x (List.mem_cons_self x l1)
      have hacc2 : alookup (trimName r) acc2 = none := by
        rw [readOrdersStep] at hstep
        by_cases hskip : trimName x = "" ∨ (alookup (trimName x) acc).isSome
        · rw [if_pos hskip] at hstep
          obtain rfl : acc = acc2 := by injection hstep
          exact hacc
        · rw [if_neg hskip] at hstep
          cases hrec : mkRecord x with
          | none => rw [hrec] at hstep; exact absurd hstep (by simp)
          | some newRec =>
            rw [hrec] at hstep
            obtain rfl : acc ++ [(trimName x, newRec)] = acc2 := by injection hstep
            rw [alookup_append, hacc, Option.none_or]
            simp [alookup, hx]
      exact ih acc2 r l2 hmk hname (fun y hy => hfresh y (List.mem_cons_of_mem x hy)) hacc2

/-!  Spec-side definitions: these are written from the claims' wording, to be
compared with the source-derived definitions above. -/

/-- HT derivation exactly as claim C3 words it: `shipping_ht = shipping / 1.20`
(unconditionally), `shipping_tax = shipping − shipping_ht`,
`product_tax_standard = max 0 (tax_standard − shipping_tax)`, standard sales
`= product_tax_standard / 0.20` when strictly positive else 0, reduced sales
`= tax_reduced / 0.055` when strictly positive else 0, then the residue
`total − (tax_standard + tax_reduced + sales_standard + sales_reduced +
shipping_ht)` is added to the standard sales when non-zero. -/
def calculate_ht_spec (total shipping tva_20 tva_55 : Int) : HTResult :=
  let shipping_ht := roundHalfUp (shipping * 100) 120
  let shipping_tax := shipping - shipping_ht
  let product_tax_standard := max 0 (tva_20 - shipping_tax)
  let sales_standard :=
    if 0 < product_tax_standard then roundHalfUp (product_tax_standard * 100) 20 else 0
  let sales_reduced := if 0 < tva_55 then roundHalfUp (tva_55 * 1000) 55 else 0
  let diff := total - (tva_20 + tva_55 + sales_standard + sales_reduced + shipping_ht)
  { tva_20 := tva_20, tva_55 := tva_55,
    sales_20 := if diff ≠ 0 then sales_standard + diff else sales_standard,
    sales_55 := sales_reduced, shipping := shipping_ht }

/-- Claim C4's canonical per-day sequence: clients debit, standard-tax,
reduced-tax, reduced-sales, standard-sales, shipping credits, in this fixed
order, all with the day's piece reference. -/
def canonicalLines (d : Date) (data : DayData) : List Entry :=
  let amounts := calculate_ht data.total data.shipping data.tva_20 data.tva_55
  [mkEntry accountClients d (some data.total) none,
   mkEntry accountTva20 d none (some amounts.tva_20),
   mkEntry accountTva55 d none (some amounts.tva_55),
   mkEntry accountSales55 d none (some amounts.sales_55),
   mkEntry accountSales20 d none (some amounts.sales_20),
   mkEntry accountShipping d none (some amounts.shipping)]

/-- Required columns of the upload-validation helper `is_valid_csv`
(utils.py:51). -/
def requiredColumns : List String := ["Name"]

/-- Missing-column computation of `is_valid_csv` (utils.py:52). -/
def missingColumns (cols : List String) : List String :=
  requiredColumns.filter (fun c => !(cols.contains c))

/-- Column acceptance of `is_valid_csv` (utils.py:54-57): the file is accepted
only when no required column is missing. -/
def csvColumnsValid (cols : List String) : Bool := (missingColumns cols).isEmpty

/-! Claims. -/

/-- C1 counterexample: the aggregate `total = 0, shipping = 0,
tax_standard = 1.00, tax_reduced = 0` (all fields non-negative) produces a
clients debit of 0 but credit lines summing to 1.00: reconciliation drives the
standard-sales amount to −1.00, the `> 0` guard then drops that line, and the
emitted lines do not balance, contradicting the claim as stated. -/
theorem claim_C1_counterexample :
    creditSum (generate_entries [(⟨2025, 1, 1⟩, ⟨0, 0, 100, 0⟩)])
      ≠ debitSum (generate_entries [(⟨2025, 1, 1⟩, ⟨0, 0, 100, 0⟩)])
    ∧ creditSum (generate_entries [(⟨2025, 1, 1⟩, ⟨0, 0, 100, 0⟩)]) = 100
    ∧ debitSum (generate_entries [(⟨2025, 1, 1⟩, ⟨0, 0, 100, 0⟩)]) = 0 :=
  ⟨by decide, by decide, by decide⟩

/-- C1 (amended): for every daily aggregate with non-negative total, shipping,
tax_standard and tax_reduced whose post-reconciliation standard-sales amount is
also non-negative, the day's journal lines balance: the clients debit (= total)
equals the sum of the credit amounts of the lines actually emitted. -/
theorem claim_C1 (d : Date) (t s a b : Int)
    (ht : 0 ≤ t) (hs : 0 ≤ s) (ha : 0 ≤ a) (hb : 0 ≤ b)
    (hrec : 0 ≤ (calculate_ht t s a b).sales_20) :
    creditSum (dayEntries d ⟨t, s, a, b⟩) = t
    ∧ debitSum (dayEntries d ⟨t, s, a, b⟩) = t := by
  have hsum := calculate_ht_sum t s a b
  have h20 : (calculate_ht t s a b).tva_20 = a := rfl
  have h55 : (calculate_ht t s a b).tva_55 = b := rfl
  have hs55 : (calculate_ht t s a b).sales_55 = sales55Raw b := rfl
  have hship : (calculate_ht t s a b).shipping = shippingHT s := rfl
  have hn55 : 0 ≤ sales55Raw b := sales55Raw_nonneg hb
  have hnsh : 0 ≤ shippingHT s := shippingHT_nonneg hs
  rw [h20, h55, hs55, hship] at hsum
  constructor
  · simp only [dayEntries, creditSum_append, creditSum_ite, h20, h55, hs55, hship]
    simp only [creditSum, List.map_cons, List.map_nil, List.sum_cons, List.sum_nil, mkEntry,
      Option.getD_none, Option.getD_some]
    split_ifs <;> omega
  · simp only [dayEntries, debitSum_append, debitSum_ite]
    simp only [debitSum, List.map_cons, List.map_nil, List.sum_cons, List.sum_nil, mkEntry,
      Option.getD_none, Option.getD_some]
    split_ifs <;> omega

/-- C1 witness: the standard scenario `total = 120.00, tax_standard = 20.00`
balances at 120.00. -/
theorem claim_C1_witness :
    creditSum (dayEntries ⟨2025, 10, 20⟩ ⟨12000, 0, 2000, 0⟩) = 12000
    ∧ debitSum (dayEntries ⟨2025, 10, 20⟩ ⟨12000, 0, 2000, 0⟩) = 12000 :=
  claim_C1 ⟨2025, 10, 20⟩ 12000 0 2000 0 (by decide) (by decide) (by decide) (by decide)
    (by decide)

/-- C3: on every non-negative daily aggregate the source HT derivation computes
exactly what the claim's formula states (spec-worded `calculate_ht_spec`), and
the scenario `total = 120.00, shipping = 0, tax_standard = 20.00,
tax_reduced = 0` emits exactly debit clients 120.00, credit standard tax 20.00,
credit standard sales 100.00. -/
theorem claim_C3 :
    (∀ t s a b : Int, 0 ≤ t → 0 ≤ s → 0 ≤ a → 0 ≤ b →
        calculate_ht t s a b = calculate_ht_spec t s a b)
    ∧ generate_entries [(⟨2025, 10, 20⟩, ⟨12000, 0, 2000, 0⟩)] =
        [mkEntry accountClients ⟨2025, 10, 20⟩ (some 12000) none,
         mkEntry accountTva20 ⟨2025, 10, 20⟩ none (some 2000),
         mkEntry accountSales20 ⟨2025, 10, 20⟩ none (some 10000)] := by
  constructor
  · intro t s a b ht hs ha hb
    have hship : shippingHT s = roundHalfUp (s * 100) 120 := by
      by_cases h : s = 0
      · subst h; rw [shippingHT, if_neg (by omega)]; decide
      · rw [shippingHT, if_pos h]
    have hprod : 0 ≤ max 0 (a - (s - roundHalfUp (s * 100) 120)) := le_max_left 0 _
    have h20 : sales20Raw s a =
        (if 0 < max 0 (a - (s - roundHalfUp (s * 100) 120))
         then roundHalfUp (max 0 (a - (s - roundHalfUp (s * 100) 120)) * 100) 20 else 0) := by
      rw [sales20Raw, productTva20, hship]
      by_cases h : 0 < max 0 (a - (s - roundHalfUp (s * 100) 120))
      · rw [if_pos (by omega), if_pos h]
      · rw [if_neg (by omega), if_neg h]
    have h55 : sales55Raw b = (if 0 < b then roundHalfUp (b * 1000) 55 else 0) := by
      by_cases h : 0 < b
      · rw [sales55Raw, if_pos (by omega), if_pos h]
      · rw [sales55Raw, if_neg (by omega), if_neg h]
    simp only [calculate_ht, calculate_ht_spec, hship, h20, h55]
  · decide

/-- C3 witness: the formula equality evaluated at the scenario aggregate. -/
theorem claim_C3_witness :
    calculate_ht 12000 0 2000 0 = calculate_ht_spec 12000 0 2000 0 :=
  claim_C3.1 12000 0 2000 0 (by decide) (by decide) (by decide) (by decide)

/-- C7: a tax pair whose name contains "5,5" or "5.5" adds its value to the
reduced bucket; any other name adds the value to the standard bucket exactly
when it is strictly positive, so a zero non-reduced value touches neither
bucket; "TVA 5,5%" and "TVA 5.5%" classify as reduced and "TVA 20%" as
standard. -/
theorem claim_C7 :
    (∀ (tax_name : String) (v : Int) (acc : Int × Int),
        is_reduced_rate tax_name = true → taxUpdate tax_name v acc = (acc.1, acc.2 + v))
    ∧ (∀ (tax_name : String) (v : Int) (acc : Int × Int),
        is_reduced_rate tax_name = false → 0 < v → taxUpdate tax_name v acc = (acc.1 + v, acc.2))
    ∧ (∀ (tax_name : String) (acc : Int × Int),
        is_reduced_rate tax_name = false → taxUpdate tax_name 0 acc = acc)
    ∧ is_reduced_rate "TVA 5,5%" = true
    ∧ is_reduced_rate "TVA 5.5%" = true
    ∧ is_reduced_rate "TVA 20%" = false := by
  refine ⟨?_, ?_, ?_, by decide, by decide, by decide⟩
  · intro tax_name v acc h
    rw [taxUpdate, if_pos h]
  · intro tax_name v acc h hv
    rw [taxUpdate, if_neg (by simp [h]), if_pos hv]
  · intro tax_name acc h
    rw [taxUpdate, if_neg (by simp [h]), if_neg (lt_irrefl 0)]

/-- C7 witness: concrete classifications through the theorem. -/
theorem claim_C7_witness :
    taxUpdate "TVA 5,5%" 55 (0, 0) = (0, 55)
    ∧ taxUpdate "TVA 20%" 200 (0, 0) = (200, 0)
    ∧ taxUpdate "TVA 20%" 0 (7, 8) = (7, 8) := by
  refine ⟨?_, ?_, ?_⟩
  · have h := claim_C7.1 "TVA 5,5%" 55 (0, 0) (by decide)
    simpa using h
  · have h := claim_C7.2.1 "TVA 20%" 200 (0, 0) (by decide) (by decide)
    simpa using h
  · exact claim_C7.2.2.1 "TVA 20%" (7, 8) (by decide)

/-- C10: on non-negative inputs the returned standard tax, reduced tax,
reduced sales and shipping HT are all non-negative; the standard-sales amount
can only go negative through a strictly negative reconciliation residue, and
when it is negative no standard-sales line is emitted for the day. -/
theorem claim_C10 (t s a b : Int) (ht : 0 ≤ t) (hs : 0 ≤ s) (ha : 0 ≤ a) (hb : 0 ≤ b) :
    0 ≤ (calculate_ht t s a b).tva_20
    ∧ 0 ≤ (calculate_ht t s a b).tva_55
    ∧ 0 ≤ (calculate_ht t s a b).sales_55
    ∧ 0 ≤ (calculate_ht t s a b).shipping
    ∧ ((calculate_ht t s a b).sales_20 < 0 →
        t - (a + b + sales20Raw s a + sales55Raw b + shippingHT s) < 0)
    ∧ ((calculate_ht t s a b).sales_20 < 0 → ∀ (d : Date),
        ∀ e ∈ dayEntries d ⟨t, s, a, b⟩, e.compte ≠ accountSales20.1) := by
  have h20 : (calculate_ht t s a b).tva_20 = a := rfl
  have h55 : (calculate_ht t s a b).tva_55 = b := rfl
  have hs55 : (calculate_ht t s a b).sales_55 = sales55Raw b := rfl
  have hship : (calculate_ht t s a b).shipping = shippingHT s := rfl
  have hs20 : (calculate_ht t s a b).sales_20 =
      (if t - (a + b + sales20Raw s a + sales55Raw b + shippingHT s) ≠ 0
       then sales20Raw s a + (t - (a + b + sales20Raw s a + sales55Raw b + shippingHT s))
       else sales20Raw s a) := rfl
  have hraw := sales20Raw_nonneg s a
  refine ⟨by rw [h20]; exact ha, by rw [h55]; exact hb,
    by rw [hs55]; exact sales55Raw_nonneg hb, by rw [hship]; exact shippingHT_nonneg hs,
    ?_, ?_⟩
  · intro hneg
    rw [hs20] at hneg
    split at hneg <;> omega
  · intro hneg d e he
    have hnpos : ¬ 0 < (calculate_ht t s a b).sales_20 := by omega
    simp only [dayEntries, List.mem_append, List.mem_singleton, mem_ite_singleton,
      if_neg hnpos, List.not_mem_nil, or_false] at he
    rcases he with (((rfl | ⟨_, rfl⟩) | ⟨_, rfl⟩) | ⟨_, rfl⟩) | ⟨_, rfl⟩
    · exact (by decide : accountClients.1 ≠ accountSales20.1)
    · exact (by decide : accountTva20.1 ≠ accountSales20.1)
    · exact (by decide : accountTva55.1 ≠ accountSales20.1)
    · exact (by decide : accountSales55.1 ≠ accountSales20.1)
    · exact (by decide : accountShipping.1 ≠ accountSales20.1)

/-- C2 counterexample: two single-row inputs whose offending field differs
(`Total = "abc"` versus `Shipping = "abc"`) both make the pipeline fail with
the exact same error value, so the failure identifies neither the offending row
nor the offending field, refuting that part of the claim (the fatal failure
itself, and the absence of output, do occur — see the amended theorem). -/
theorem claim_C2_counterexample :
    read_orders [{ name := some "1001", total := some "abc" }] = none
    ∧ read_orders [{ name := some "1001", shipping := some "abc" }] = none
    ∧ read_orders [{ name := some "1001", total := some "abc" }] =
        read_orders [{ name := some "1001", shipping := some "abc" }] :=
  ⟨by decide, by decide, by decide⟩

/-- C2 (amended): whenever the input contains a row whose monetary fields fail
the amount grammar and whose identifier is non-blank and not taken by an
earlier row, the whole run fails (a fatal propagated parse error) and no
journal output is produced; the error does not identify the offending row or
field (the model's failure value carries no context, as the raised
`InvalidOperation` carries none). -/
theorem claim_C2 (l1 : List Row) (r : Row) (l2 : List Row)
    (hmk : mkRecord r = none) (hname : trimName r ≠ "")
    (hfresh : ∀ x ∈ l1, trimName x ≠ trimName r) :
    read_orders (l1 ++ r :: l2) = none ∧ pipeline (l1 ++ r :: l2) = none := by
  have h := readOrdersAux_fails l1 [] r l2 hmk hname hfresh rfl
  rw [read_orders]
  refine ⟨h, ?_⟩
  rw [pipeline, read_orders, h]

/-- C2 witness: a single order row with `Total = "abc"` aborts the run. -/
theorem claim_C2_witness :
    read_orders ([] ++ { name := some "1001", total := some "abc" } :: [])= none
    ∧ pipeline ([] ++ { name := some "1001", total := some "abc" } :: []) = none :=
  claim_C2 [] { name := some "1001", total := some "abc" } [] (by decide) (by decide)
    (by simp)

/-- C9 counterexample: on an input whose rows all lack the order-identifier
field, the transformation core does not fail: it returns an empty order
mapping and an empty journal, a silent empty result, contrary to the claim. -/
theorem claim_C9_counterexample :
    read_orders [{ total := some "10", paidAt := some "2025-01-01 00:00:00" }] = some []
    ∧ pipeline [{ total := some "10", paidAt := some "2025-01-01 00:00:00" }] = some [] :=
  ⟨by decide, by decide⟩

/-- C9 (amended): the core itself does not fail when the order-identifier field
is absent from every row — it silently produces an empty mapping and an empty
journal; the identifier-column requirement is enforced only by the separate
upload-validation helper `is_valid_csv`, which rejects a header without the
"Name" column before the core runs (and accepts one with it). -/
theorem claim_C9 (rows : List Row) (h : ∀ row ∈ rows, row.name = none) :
    (read_orders rows = some [] ∧ pipeline rows = some [])
    ∧ (∀ cols : List String, csvColumnsValid cols = false ↔ "Name" ∉ cols) := by
  have hro : ∀ (l : List Row), (∀ row ∈ l, row.name = none) →
      readOrdersAux [] l = some [] := by
    intro l
    induction l with
    | nil => intro _; rfl
    | cons row t ih =>
      intro hl
      have hn : row.name = none := hl row (List.mem_cons_self row t)
      rw [readOrdersAux, readOrdersStep]
      rw [if_pos (Or.inl (by rw [trimName, hn]; rfl))]
      exact ih (fun x hx => hl x (List.mem_cons_of_mem row hx))
  have h1 : read_orders rows = some [] := hro rows h
  refine ⟨⟨h1, by rw [pipeline, h1]; rfl⟩, ?_⟩
  intro cols
  have hcm : cols.contains "Name" = true ↔ "Name" ∈ cols := List.elem_iff
  by_cases hmem : "Name" ∈ cols
  · have hc : cols.contains "Name" = true := hcm.mpr hmem
    simp [csvColumnsValid, missingColumns, requiredColumns, hc, hmem]
  · have hc : cols.contains "Name" = false := by
      cases hcc : cols.contains "Name" with
      | false => rfl
      | true => exact absurd (hcm.mp hcc) hmem
    simp [csvColumnsValid, missingColumns, requiredColumns, hc, hmem]

/-- C9 witness: the silent empty result on one identifier-less row, and the
validator verdicts on two concrete headers. -/
theorem claim_C9_witness :
    (read_orders [{ total := some "10" }] = some []
      ∧ pipeline [{ total := some "10" }] = some [])
    ∧ (∀ cols : List String, csvColumnsValid cols = false ↔ "Name" ∉ cols) :=
  claim_C9 [{ total := some "10" }]
    (by intro row hr; simp at hr; rw [hr])

/-- C10 witness: the invariants evaluated at the scenario aggregate. -/
theorem claim_C10_witness :
    0 ≤ (calculate_ht 12000 0 2000 0).tva_20
    ∧ 0 ≤ (calculate_ht 12000 0 2000 0).tva_55
    ∧ 0 ≤ (calculate_ht 12000 0 2000 0).sales_55
    ∧ 0 ≤ (calculate_ht 12000 0 2000 0).shipping
    ∧ ((calculate_ht 12000 0 2000 0).sales_20 < 0 →
        12000 - (2000 + 0 + sales20Raw 0 2000 + sales55Raw 0 + shippingHT 0) < 0)
    ∧ ((calculate_ht 12000 0 2000 0).sales_20 < 0 → ∀ (d : Date),
        ∀ e ∈ dayEntries d ⟨12000, 0, 2000, 0⟩, e.compte ≠ accountSales20.1) :=
  claim_C10 12000 0 2000 0 (by decide) (by decide) (by decide) (by decide)

/-- C4: the entry sequence is the ascending-date traversal of the aggregates,
each day contributing — in the fixed order clients debit, standard-tax,
reduced-tax, reduced-sales, standard-sales, shipping — exactly the lines whose
(post-reconciliation) credit amount is strictly positive, the clients debit
always included, with every line of a day carrying the day's piece reference. -/
theorem claim_C4 (daily : List (Date × DayData)) :
    generate_entries daily =
      (sortList dateLe (daily.map Prod.fst)).flatMap
        (fun d =>
          match alookup d daily with
          | some data => dayEntries d data
          | none => [])
    ∧ (sortList dateLe (daily.map Prod.fst)).Pairwise (fun a b => dateLe a b = true)
    ∧ (sortList dateLe (daily.map Prod.fst)).Perm (daily.map Prod.fst)
    ∧ (∀ (d : Date) (data : DayData),
        dayEntries d data = (canonicalLines d data).filter
          (fun e => e.montantDebit.isSome || decide (0 < e.montantCredit.getD 0)))
    ∧ (∀ (d : Date) (data : DayData), ∀ e ∈ dayEntries d data,
        e.piece = JOURNAL ++ fmtYYMMDD d) := by
  refine ⟨rfl, sortList_pairwise dateLe dateLe_trans dateLe_total _,
    sortList_perm dateLe _, ?_, ?_⟩
  · intro d data
    simp only [dayEntries, canonicalLines]
    by_cases h1 : 0 < (calculate_ht data.total data.shipping data.tva_20 data.tva_55).tva_20 <;>
    by_cases h2 : 0 < (calculate_ht data.total data.shipping data.tva_20 data.tva_55).tva_55 <;>
    by_cases h3 : 0 < (calculate_ht data.total data.shipping data.tva_20 data.tva_55).sales_55 <;>
    by_cases h4 : 0 < (calculate_ht data.total data.shipping data.tva_20 data.tva_55).sales_20 <;>
    by_cases h5 : 0 < (calculate_ht data.total data.shipping data.tva_20 data.tva_55).shipping <;>
      simp [mkEntry, h1, h2, h3, h4, h5]
  · intro d data e he
    simp only [dayEntries, List.mem_append, List.mem_singleton, mem_ite_singleton] at he
    rcases he with ((((rfl | ⟨_, rfl⟩) | ⟨_, rfl⟩) | ⟨_, rfl⟩) | ⟨_, rfl⟩) | ⟨_, rfl⟩
    all_goals rfl

/-- C4 witness: the piece-reference property applied on a concrete day. -/
theorem claim_C4_witness :
    (mkEntry accountClients ⟨2025, 10, 20⟩ (some 12000) none).piece =
      JOURNAL ++ fmtYYMMDD ⟨2025, 10, 20⟩ :=
  (claim_C4 [(⟨2025, 10, 20⟩, ⟨12000, 0, 2000, 0⟩)]).2.2.2.2 ⟨2025, 10, 20⟩
    ⟨12000, 0, 2000, 0⟩ (mkEntry accountClients ⟨2025, 10, 20⟩ (some 12000) none) (by decide)

/-- C5: on a successful extraction the resulting mapping has no duplicate
identifiers, never contains the blank identifier, and maps each non-blank
identifier to the record built from the first input row carrying it — so rows
with a blank identifier and later rows repeating an identifier contribute
nothing. -/
theorem claim_C5 (rows : List Row) (res : List (String × OrderRecord))
    (h : read_orders rows = some res) :
    (res.map Prod.fst).Nodup
    ∧ alookup "" res = none
    ∧ ∀ key : String, key ≠ "" →
        alookup key res = (rows.find? (fun r => decide (trimName r = key))).bind mkRecord := by
  obtain ⟨h1, h2, h3⟩ := readOrdersAux_spec rows [] res h
  refine ⟨h1 (by simp), h2 rfl, fun key hk => ?_⟩
  rw [h3 key hk]
  rfl

/-- C5 witness: a blank row and a duplicate row leave only the first "1001"
record. -/
theorem claim_C5_witness :
    alookup "1001" [("1001", (⟨none, 1000, 0, 0, 0⟩ : OrderRecord))] =
      (([{ name := some "1001", total := some "10" }, { name := some "" },
          { name := some "1001", total := some "99" }] : List Row).find?
        (fun r => decide (trimName r = "1001"))).bind mkRecord :=
  (claim_C5
      [{ name := some "1001", total := some "10" }, { name := some "" },
       { name := some "1001", total := some "99" }]
      [("1001", ⟨none, 1000, 0, 0, 0⟩)] (by decide)).2.2 "1001" (by decide)

/-- C6: the date field prefers the "paid" timestamp and falls back to the
"created" timestamp exactly when "paid" is absent or blank; parsing looks only
at the leading 10 characters (two non-blank strings agreeing there parse
alike, and a trailing time-of-day is ignored); an invalid date yields `none`;
records without a date are dropped from every aggregate; the record's date is
exactly the parse of the selected field; and a parse failure still leaves the
order in the extractor's mapping. -/
theorem claim_C6 :
    (∀ row : Row, row.paidAt = none ∨ row.paidAt = some "" →
        dateField row = row.createdAt.getD "")
    ∧ (∀ s t : String, s.data.take 10 = t.data.take 10 → strTrim s ≠ "" → strTrim t ≠ "" →
        parse_date s = parse_date t)
    ∧ parse_date "2025-10-20 18:13:20 +0200" = some ⟨2025, 10, 20⟩
    ∧ parse_date "2025-13-01 00:00:00" = none
    ∧ (∀ (l1 l2 : List OrderRecord) (r : OrderRecord), r.date = none →
        aggRecords (l1 ++ r :: l2) = aggRecords (l1 ++ l2))
    ∧ (∀ (row : Row) (rec : OrderRecord), mkRecord row = some rec →
        rec.date = parse_date (dateField row))
    ∧ (∀ (rows : List Row) (res : List (String × OrderRecord)) (row : Row),
        read_orders rows = some res → row ∈ rows → trimName row ≠ "" →
        trimName row ∈ res.map Prod.fst) := by
  refine ⟨?_, ?_, by decide, by decide, ?_, ?_, ?_⟩
  · intro row h
    rcases h with h | h <;> simp [dateField, h]
  · intro s t hst hs ht
    rw [parse_date, parse_date, if_neg hs, if_neg ht, hst]
  · intro l1 l2 r hr
    have hstep : ∀ acc, aggStep acc r = acc := fun acc => by simp [aggStep, hr]
    rw [aggRecords, aggRecords, List.foldl_append, List.foldl_append, List.foldl_cons, hstep]
  · intro row rec h
    rw [mkRecord] at h
    split at h
    · obtain rfl : _ = rec := by injection h
      rfl
    · exact absurd h (by simp)
  · intro rows res row h hmem hname
    obtain ⟨h1, h2, h3⟩ := readOrdersAux_spec rows [] res h
    by_contra hnot
    have hnone : alookup (trimName row) res = none := (alookup_eq_none _ _).mpr hnot
    have heq := h3 (trimName row) hname
    rw [hnone] at heq
    have heq2 : ((rows.find? (fun r => decide (trimName r = trimName row))).bind mkRecord)
        = none := heq.symm
    cases hfind : rows.find? (fun r => decide (trimName r = trimName row)) with
    | none =>
      have hsome : (rows.find? (fun r => decide (trimName r = trimName row))).isSome :=
        List.find?_isSome.mpr ⟨row, hmem, by simp⟩
      rw [hfind] at hsome
      exact absurd hsome (by simp)
    | some r0 =>
      rw [hfind] at heq2
      have hmk : mkRecord r0 = none := by simpa using heq2
      have hkey : trimName r0 = trimName row := by simpa using List.find?_some hfind
      obtain ⟨l1, l2, hsplit, hl1⟩ := find?_split _ rows r0 hfind
      have hfresh : ∀ x ∈ l1, trimName x ≠ trimName r0 := by
        intro x hx
        rw [hkey]
        simpa using hl1 x hx
      have hfail : read_orders (l1 ++ r0 :: l2) = none :=
        readOrdersAux_fails l1 [] r0 l2 hmk (by rw [hkey]; exact hname) hfresh rfl
      rw [hsplit, hfail] at h
      exact absurd h (by simp)

/-- C6 witness: the created-date fallback on a blank paid field, and parse
agreement of two strings sharing the leading 10 characters. -/
theorem claim_C6_witness :
    dateField { paidAt := some "", createdAt := some "2025-01-02 00:00:00" } =
      ({ paidAt := some "", createdAt := some "2025-01-02 00:00:00" } : Row).createdAt.getD ""
    ∧ parse_date "2025-10-20 18:13:20 +0200" = parse_date "2025-10-20 23:59:59 +0000" :=
  ⟨claim_C6.1 _ (Or.inr rfl),
   claim_C6.2.1 "2025-10-20 18:13:20 +0200" "2025-10-20 23:59:59 +0000"
     (by decide) (by decide) (by decide)⟩

/-- C8: each date's aggregate is the componentwise (exact, integer-cents) sum
of the records carrying that date — absent when no record does — and the
per-date aggregates are invariant under any permutation of the extracted
records. -/
theorem claim_C8 :
    (∀ (orders : List (String × OrderRecord)) (d : Date),
        alookup d (aggregate_by_date orders) =
          (if ((orders.map Prod.snd).filter (fun r => decide (r.date = some d))).isEmpty
           then none
           else some (sumDay ((orders.map Prod.snd).filter (fun r => decide (r.date = some d))))))
    ∧ (∀ o1 o2 : List (String × OrderRecord), o1.Perm o2 → ∀ d : Date,
        alookup d (aggregate_by_date o1) = alookup d (aggregate_by_date o2)) := by
  have hchar : ∀ (orders : List (String × OrderRecord)) (d : Date),
      alookup d (aggregate_by_date orders) =
        (if ((orders.map Prod.snd).filter (fun r => decide (r.date = some d))).isEmpty
         then none
         else some (sumDay ((orders.map Prod.snd).filter (fun r => decide (r.date = some d))))) := by
    intro orders d
    rw [aggregate_by_date]
    exact aggRecords_lookup _ _
  refine ⟨hchar, ?_⟩
  intro o1 o2 hperm d
  rw [hchar o1 d, hchar o2 d]
  have hf : ((o1.map Prod.snd).filter (fun r => decide (r.date = some d))).Perm
      ((o2.map Prod.snd).filter (fun r => decide (r.date = some d))) :=
    (hperm.map Prod.snd).filter _
  by_cases hnil : (o1.map Prod.snd).filter (fun r => decide (r.date = some d)) = []
  · have hnil2 : (o2.map Prod.snd).filter (fun r => decide (r.date = some d)) = [] :=
      ((hnil ▸ hf).symm).eq_nil
    rw [hnil, hnil2]
  · have hnil2 : ¬ (o2.map Prod.snd).filter (fun r => decide (r.date = some d)) = [] :=
      fun hc => hnil ((hc ▸ hf).eq_nil)
    rw [if_neg (by simpa [List.isEmpty_iff] using hnil),
      if_neg (by simpa [List.isEmpty_iff] using hnil2)]
    exact congrArg some (sumDay_perm hf)

/-- C8 witness: swapping two same-day orders leaves the day's aggregate
unchanged. -/
theorem claim_C8_witness :
    alookup (⟨2025, 1, 1⟩ : Date)
        (aggregate_by_date
          [("1001", ⟨some ⟨2025, 1, 1⟩, 100, 0, 0, 0⟩),
           ("1002", ⟨some ⟨2025, 1, 1⟩, 200, 0, 0, 0⟩)]) =
      alookup ⟨2025, 1, 1⟩
        (aggregate_by_date
          [("1002", ⟨some ⟨2025, 1, 1⟩, 200, 0, 0, 0⟩),
           ("1001", ⟨some ⟨2025, 1, 1⟩, 100, 0, 0, 0⟩)]) :=
  claim_C8.2 _ _
    (List.Perm.swap ("1002", ⟨some ⟨2025, 1, 1⟩, 200, 0, 0, 0⟩)
      ("1001", ⟨some ⟨2025, 1, 1⟩, 100, 0, 0, 0⟩) []) ⟨2025, 1, 1⟩

end MRF
